import Mathlib

/-!
Verification of the Neurocalm streaming-and-inference engine specification
against the repository sources.

The repository sources under `src/` contain the browser dashboard components
(`src/frontend/src/components/Dashboard.js`, `src/unnamed/part_000`,
`src/unnamed/part_001`), the accuracy methodology document
(`src/EEG_DATA_ACCURACY.md`) and the backend launch script.  The backend
engine itself (SampleSource, SpectralAnalyzer, StateScorer, SessionController,
BroadcastHub) is launched by `start_backend_verbose.ps1` as
`backend.websocket_server` but its source is not in the repository snapshot;
those components are modelled from the specification, and each such
definition is marked `Modelled from the spec:` in its doc comment.
Client-side handlers are embedded directly from the JavaScript sources.

All numeric code is embedded over `ℚ`.
-/

namespace Neurocalm

/-- Simulation/interpretation mode: calm, stressed or normal. -/
inductive Mode where
  | calm
  | stressed
  | normal
deriving DecidableEq, Repr

/-- Band-power percentages for the four bands (theta, alpha, beta, gamma),
as percentages of total in-band power. -/
structure BandPower where
  thetaPct : ℚ
  alphaPct : ℚ
  betaPct : ℚ
  gammaPct : ℚ
deriving DecidableEq, Repr

/-- A valid band-power record: all percentages nonnegative and summing to 100. -/
def BandPower.Valid (bp : BandPower) : Prop :=
  0 ≤ bp.thetaPct ∧ 0 ≤ bp.alphaPct ∧ 0 ≤ bp.betaPct ∧ 0 ≤ bp.gammaPct ∧
    bp.thetaPct + bp.alphaPct + bp.betaPct + bp.gammaPct = 100

instance (bp : BandPower) : Decidable bp.Valid := by
  unfold BandPower.Valid
  infer_instance

/-- The three derived mental-state scores. -/
structure MentalStateScore where
  calm : ℚ
  stressed : ℚ
  normal : ℚ
deriving DecidableEq, Repr

/-- Clamp a rational into the interval [lo, hi]. -/
def clampQ (lo hi x : ℚ) : ℚ := max lo (min hi x)

/-- Modelled from the spec: the StateScorer measured-path calm score
(backend source is not under src/; formula from spec section 4.3 and
src/EEG_DATA_ACCURACY.md "Score Calculation Methodology").  The two
components are each clamped to [0,50]; their sum is the calm score, clamped
to [0,100]. -/
def calmScore (bp : BandPower) : ℚ :=
  clampQ 0 100
    (clampQ 0 50 (bp.alphaPct / 40 * 50) +
      clampQ 0 50 ((1 - (bp.betaPct + bp.gammaPct) / 50) * 50))

/-- Modelled from the spec: the StateScorer measured-path stressed score
(backend source is not under src/; formula from spec section 4.3 and
src/EEG_DATA_ACCURACY.md). -/
def stressedScore (bp : BandPower) : ℚ :=
  clampQ 0 100
    (clampQ 0 50 ((bp.betaPct + bp.gammaPct) / 40 * 50) +
      clampQ 0 50 ((1 - bp.alphaPct / 30) * 50))

/-- Mean absolute deviation of the four band percentages from the ideal
quarter split (25% per band). -/
def meanAbsDevFromQuarter (bp : BandPower) : ℚ :=
  (|bp.thetaPct - 25| + |bp.alphaPct - 25| + |bp.betaPct - 25| +
    |bp.gammaPct - 25|) / 4

/-- Modelled from the spec: the StateScorer measured-path normal score
(backend source is not under src/).  The distance from the ideal quarter
split is normalized by its maximum possible value 75/2 (attained at a fully
concentrated distribution), and the score is clamped to [0,100]. -/
def normalScore (bp : BandPower) : ℚ :=
  clampQ 0 100 ((1 - meanAbsDevFromQuarter bp / (75 / 2)) * 100)

/-- Modelled from the spec: the StateScorer measured path
`score(BandPower, Mode) -> MentalStateScore` (backend source is not under
src/).  The measured path is a pure function; the Mode argument does not
enter the measured formulas. -/
def scoreMeasured (bp : BandPower) (_m : Mode) : MentalStateScore :=
  ⟨calmScore bp, stressedScore bp, normalScore bp⟩

theorem clampQ_le (lo hi x : ℚ) (h : lo ≤ hi) : clampQ lo hi x ≤ hi :=
  max_le h (min_le_left _ _)

theorem le_clampQ (lo hi x : ℚ) : lo ≤ clampQ lo hi x :=
  le_max_left _ _

/-- C1: for every valid BandPower input and every Mode, each of the calm,
stressed and normal measured-path scores lies in [0,100]; the scores are
clamped independently and are not required to sum to 100. -/
theorem C1_measured_scores_in_range (bp : BandPower) (m : Mode)
    (_h : bp.Valid) :
    (0 ≤ (scoreMeasured bp m).calm ∧ (scoreMeasured bp m).calm ≤ 100) ∧
    (0 ≤ (scoreMeasured bp m).stressed ∧ (scoreMeasured bp m).stressed ≤ 100) ∧
    (0 ≤ (scoreMeasured bp m).normal ∧ (scoreMeasured bp m).normal ≤ 100) ∧
    ¬ (∀ bp2 : BandPower, bp2.Valid → ∀ m2 : Mode,
        (scoreMeasured bp2 m2).calm + (scoreMeasured bp2 m2).stressed +
          (scoreMeasured bp2 m2).normal = 100) := by
  refine ⟨⟨le_clampQ _ _ _, clampQ_le _ _ _ (by norm_num)⟩,
    ⟨le_clampQ _ _ _, clampQ_le _ _ _ (by norm_num)⟩,
    ⟨le_clampQ _ _ _, clampQ_le _ _ _ (by norm_num)⟩, ?_⟩
  intro hall
  have h2 := hall ⟨25, 25, 25, 25⟩ (by norm_num [BandPower.Valid]) Mode.normal
  revert h2
  norm_num [scoreMeasured, calmScore, stressedScore, normalScore,
    meanAbsDevFromQuarter, clampQ, max_def, min_def]

/-- Witness for C1 at the balanced band-power input. -/
theorem C1_measured_scores_in_range_witness :
    BandPower.Valid ⟨25, 25, 25, 25⟩ ∧
    ((0 ≤ (scoreMeasured ⟨25, 25, 25, 25⟩ Mode.normal).calm ∧
        (scoreMeasured ⟨25, 25, 25, 25⟩ Mode.normal).calm ≤ 100) ∧
      (0 ≤ (scoreMeasured ⟨25, 25, 25, 25⟩ Mode.normal).stressed ∧
        (scoreMeasured ⟨25, 25, 25, 25⟩ Mode.normal).stressed ≤ 100) ∧
      (0 ≤ (scoreMeasured ⟨25, 25, 25, 25⟩ Mode.normal).normal ∧
        (scoreMeasured ⟨25, 25, 25, 25⟩ Mode.normal).normal ≤ 100) ∧
      ¬ (∀ bp2 : BandPower, bp2.Valid → ∀ m2 : Mode,
          (scoreMeasured bp2 m2).calm + (scoreMeasured bp2 m2).stressed +
            (scoreMeasured bp2 m2).normal = 100)) :=
  ⟨by norm_num [BandPower.Valid],
    C1_measured_scores_in_range ⟨25, 25, 25, 25⟩ Mode.normal
      (by norm_num [BandPower.Valid])⟩

/-- C7: if the alpha fraction is 100% then, for a valid BandPower, beta and
gamma vanish and the measured-path calm score saturates at 50 + 50 = 100. -/
theorem C7_full_alpha_saturates_calm (bp : BandPower) (m : Mode)
    (h : bp.Valid) (ha : bp.alphaPct = 100) :
    bp.betaPct + bp.gammaPct = 0 ∧ (scoreMeasured bp m).calm = 100 := by
  obtain ⟨ht, _, hb, hg, hsum⟩ := h
  have hbz : bp.betaPct = 0 := by linarith
  have hgz : bp.gammaPct = 0 := by linarith
  constructor
  · rw [hbz, hgz]; norm_num
  · simp only [scoreMeasured, calmScore, ha, hbz, hgz, clampQ]
    norm_num

/-- Witness for C7 at the pure-alpha band-power input. -/
theorem C7_full_alpha_saturates_calm_witness :
    BandPower.Valid ⟨0, 100, 0, 0⟩ ∧ (0 : ℚ) + 0 = 0 ∧
      (scoreMeasured ⟨0, 100, 0, 0⟩ Mode.calm).calm = 100 := by
  refine ⟨by norm_num [BandPower.Valid], ?_⟩
  have h := C7_full_alpha_saturates_calm ⟨0, 100, 0, 0⟩ Mode.calm
    (by norm_num [BandPower.Valid]) rfl
  exact h

/-- Modelled from the spec: the SpectralAnalyzer's power spectral density for
one full window (backend source is not under src/).  The estimation method is
left open by the spec (section 9); what is fixed is that each frequency bin
carries the squared magnitude of a complex spectral coefficient, so a PSD is
embedded as the real and imaginary coefficient per bin.  With a 200 Hz source
and a one-second window, bin k corresponds to k Hz. -/
structure PSD where
  re : ℕ → ℚ
  im : ℕ → ℚ

/-- Power in one frequency bin: squared magnitude of the spectral coefficient. -/
def binPower (p : PSD) (k : ℕ) : ℚ := p.re k ^ 2 + p.im k ^ 2

/-- Theta band bins: 4–8 Hz. -/
def thetaBins : Finset ℕ := Finset.Ico 4 8

/-- Alpha band bins: 8–13 Hz. -/
def alphaBins : Finset ℕ := Finset.Ico 8 13

/-- Beta band bins: 13–30 Hz. -/
def betaBins : Finset ℕ := Finset.Ico 13 30

/-- Gamma band bins: 30–100 Hz inclusive. -/
def gammaBins : Finset ℕ := Finset.Ico 30 101

/-- Raw power integrated over a band's bins. -/
def bandRaw (p : PSD) (bins : Finset ℕ) : ℚ := bins.sum (binPower p)

/-- Modelled from the spec: total in-band power across the four bands; power
at bins outside 4–100 Hz never enters this total, so it is discarded before
normalization. -/
def totalInBand (p : PSD) : ℚ :=
  bandRaw p thetaBins + bandRaw p alphaBins + bandRaw p betaBins +
    bandRaw p gammaBins

/-- Modelled from the spec: the four normalized band-power fractions returned
by SpectralAnalyzer for a full window, each band's raw power divided by the
total in-band power. -/
def bandFractions (p : PSD) : BandPower :=
  ⟨bandRaw p thetaBins / totalInBand p, bandRaw p alphaBins / totalInBand p,
    bandRaw p betaBins / totalInBand p, bandRaw p gammaBins / totalInBand p⟩

theorem binPower_nonneg (p : PSD) (k : ℕ) : 0 ≤ binPower p k :=
  add_nonneg (sq_nonneg _) (sq_nonneg _)

theorem bandRaw_nonneg (p : PSD) (bins : Finset ℕ) : 0 ≤ bandRaw p bins :=
  Finset.sum_nonneg fun k _ => binPower_nonneg p k

/-- C2 (amended): for every full window (every PSD) whose total in-band
power is positive — excluding all-zero or DC-only windows, where the
normalizing total is 0 and the fractions degenerate — the four band
fractions sum to exactly 1, hence to 1.0 within 1e-6, because they are
normalized by the total in-band power across the four bands after
discarding power outside 4–100 Hz. -/
theorem C2_band_fractions_sum_to_one (p : PSD) (h : 0 < totalInBand p) :
    (bandFractions p).thetaPct + (bandFractions p).alphaPct +
        (bandFractions p).betaPct + (bandFractions p).gammaPct = 1 ∧
      |(bandFractions p).thetaPct + (bandFractions p).alphaPct +
          (bandFractions p).betaPct + (bandFractions p).gammaPct - 1| ≤
        1 / 1000000 := by
  have hne : totalInBand p ≠ 0 := ne_of_gt h
  have hsum : (bandFractions p).thetaPct + (bandFractions p).alphaPct +
      (bandFractions p).betaPct + (bandFractions p).gammaPct = 1 := by
    simp only [bandFractions]
    rw [div_add_div_same, div_add_div_same, div_add_div_same]
    exact div_self (by simpa [totalInBand] using hne)
  refine ⟨hsum, ?_⟩
  rw [hsum]
  norm_num

/-- C2 counterexample: the all-zero full window is a legitimate
finite-voltage window, yet its in-band power is zero, every band fraction
degenerates to 0, and the fractions sum to 0 — not within 1e-6 of 1 — so
the claim's universal statement fails there. -/
theorem C2_counterexample_zero_window :
    (bandFractions ⟨fun _ => 0, fun _ => 0⟩).thetaPct +
          (bandFractions ⟨fun _ => 0, fun _ => 0⟩).alphaPct +
          (bandFractions ⟨fun _ => 0, fun _ => 0⟩).betaPct +
          (bandFractions ⟨fun _ => 0, fun _ => 0⟩).gammaPct = 0 ∧
      ¬ |(bandFractions ⟨fun _ => 0, fun _ => 0⟩).thetaPct +
            (bandFractions ⟨fun _ => 0, fun _ => 0⟩).alphaPct +
            (bandFractions ⟨fun _ => 0, fun _ => 0⟩).betaPct +
            (bandFractions ⟨fun _ => 0, fun _ => 0⟩).gammaPct - 1| ≤
          1 / 1000000 := by
  have hz : ∀ bins : Finset ℕ, bandRaw ⟨fun _ => 0, fun _ => 0⟩ bins = 0 := by
    intro bins
    simp [bandRaw, binPower]
  constructor
  · simp [bandFractions, hz]
  · simp only [bandFractions, hz, zero_div, add_zero, zero_sub, abs_neg,
      abs_one]
    norm_num

/-- Witness for C2 at the flat PSD with unit coefficients in every bin. -/
theorem C2_band_fractions_sum_to_one_witness :
    0 < totalInBand ⟨fun _ => 1, fun _ => 0⟩ ∧
      ((bandFractions ⟨fun _ => 1, fun _ => 0⟩).thetaPct +
            (bandFractions ⟨fun _ => 1, fun _ => 0⟩).alphaPct +
            (bandFractions ⟨fun _ => 1, fun _ => 0⟩).betaPct +
            (bandFractions ⟨fun _ => 1, fun _ => 0⟩).gammaPct = 1 ∧
        |(bandFractions ⟨fun _ => 1, fun _ => 0⟩).thetaPct +
              (bandFractions ⟨fun _ => 1, fun _ => 0⟩).alphaPct +
              (bandFractions ⟨fun _ => 1, fun _ => 0⟩).betaPct +
              (bandFractions ⟨fun _ => 1, fun _ => 0⟩).gammaPct - 1| ≤
          1 / 1000000) := by
  have hpos : 0 < totalInBand ⟨fun _ => 1, fun _ => 0⟩ := by
    simp only [totalInBand, bandRaw, binPower, thetaBins, alphaBins, betaBins,
      gammaBins, Finset.sum_const, Nat.card_Ico]
    norm_num
  exact ⟨hpos, C2_band_fractions_sum_to_one ⟨fun _ => 1, fun _ => 0⟩ hpos⟩

/-- The process-wide Session snapshot: recording flag and active mode
(spec section 3; `startedAt` plays no role in any claim and is omitted). -/
structure Session where
  isRecording : Bool
  mode : Mode
deriving DecidableEq, Repr

/-- Inbound commands from the transport/UI layer (spec section 6). -/
inductive Command where
  | startRecording
  | stopRecording
  | setMode (m : Mode)
deriving DecidableEq, Repr

/-- Outbound events (spec section 6).  `eegData` carries a sequence tag in
place of the raw-channel payload; `ack` is the no-op success acknowledgment
for a command that targets the state the Session is already in. -/
inductive Event where
  | stateSync (isRecording : Bool) (mode : Mode)
  | eegData (tag : ℕ)
  | recordingStarted
  | recordingStopped
  | mentalStateChanged (m : Mode)
  | infoEv (tag : ℕ)
  | errorEv
  | ack
deriving DecidableEq, Repr

/-- Modelled from the spec: the SessionController state machine (backend
source is not under src/; spec section 4.4).  `Idle --start--> Recording`
emits `recording_started`; `Recording --stop--> Idle` emits
`recording_stopped`; `setMode` updates the mode and emits
`mental_state_changed`; any command received while already in the target
state is a no-op that still acknowledges success. -/
def applyCommand (s : Session) (c : Command) : Session × List Event :=
  match c with
  | .startRecording =>
      if s.isRecording then (s, [Event.ack])
      else ({ s with isRecording := true }, [Event.recordingStarted])
  | .stopRecording =>
      if s.isRecording then ({ s with isRecording := false },
        [Event.recordingStopped])
      else (s, [Event.ack])
  | .setMode m =>
      if s.mode = m then (s, [Event.ack])
      else ({ s with mode := m }, [Event.mentalStateChanged m])

/-- C6: issuing start_recording twice in a row is equivalent to issuing it
once — the Session state after the second command is identical to the state
after the first, and the second command emits only the no-op success
acknowledgment, not a second recording_started transition. -/
theorem C6_start_recording_idempotent (s : Session) :
    (applyCommand (applyCommand s .startRecording).1 .startRecording).1 =
        (applyCommand s .startRecording).1 ∧
      (applyCommand (applyCommand s .startRecording).1 .startRecording).2 =
        [Event.ack] ∧
      Event.recordingStarted ∉
        (applyCommand (applyCommand s .startRecording).1 .startRecording).2 := by
  cases hs : s.isRecording <;> simp [applyCommand, hs]

/-- The outcome of one hardware `read()` call. -/
inductive ReadResult where
  | sample (tag : ℕ)
  | failure
deriving DecidableEq, Repr

/-- Modelled from the spec: the producer pipeline consuming hardware reads
while recording (backend source is not under src/; spec sections 5 and 7).
Each successful read emits one `eeg_data` event; a read failure auto-stops
the Session, emits exactly one `error` event and does not retry — the
remaining reads are never consumed. -/
def runPipeline (s : Session) : List ReadResult → Session × List Event
  | [] => (s, [])
  | .sample t :: rest =>
      if s.isRecording then
        let r := runPipeline s rest
        (r.1, Event.eegData t :: r.2)
      else (s, [])
  | .failure :: _rest =>
      if s.isRecording then
        ({ s with isRecording := false }, [Event.errorEv])
      else (s, [])

/-- C5: if the hardware read fails while a session is recording, exactly one
error event is emitted, the Session transitions to Idle, no eeg_data event
follows the error, and the failed read is not silently retried — the
pipeline output does not depend on the reads queued after the failure. -/
theorem C5_read_failure_stops_session (s : Session) (good : List ℕ)
    (rest : List ReadResult) (h : s.isRecording = true) :
    (runPipeline s (good.map ReadResult.sample ++
          ReadResult.failure :: rest)).2 =
        good.map Event.eegData ++ [Event.errorEv] ∧
      (runPipeline s (good.map ReadResult.sample ++
          ReadResult.failure :: rest)).1.isRecording = false ∧
      (runPipeline s (good.map ReadResult.sample ++
          ReadResult.failure :: rest)).2.count Event.errorEv = 1 ∧
      runPipeline s (good.map ReadResult.sample ++
          ReadResult.failure :: rest) =
        runPipeline s (good.map ReadResult.sample ++ [ReadResult.failure]) := by
  induction good with
  | nil =>
      simp [runPipeline, h]
  | cons t ts ih =>
      obtain ⟨ih1, ih2, ih3, ih4⟩ := ih
      refine ⟨?_, ?_, ?_, ?_⟩
      · simp [runPipeline, h, ih1]
      · simp [runPipeline, h, ih2]
      · simp [runPipeline, h, List.count_cons, ih3]
      · simp [runPipeline, h, ih4]

/-- Witness for C5: a recording session, two good reads, then a failure,
with two more reads queued behind the failure. -/
theorem C5_read_failure_stops_session_witness :
    (⟨true, Mode.normal⟩ : Session).isRecording = true ∧
      ((runPipeline ⟨true, Mode.normal⟩ ([1, 2].map ReadResult.sample ++
            ReadResult.failure :: [ReadResult.sample 3, ReadResult.failure])).2 =
          [1, 2].map Event.eegData ++ [Event.errorEv] ∧
        (runPipeline ⟨true, Mode.normal⟩ ([1, 2].map ReadResult.sample ++
            ReadResult.failure :: [ReadResult.sample 3, ReadResult.failure])).1.isRecording =
          false ∧
        (runPipeline ⟨true, Mode.normal⟩ ([1, 2].map ReadResult.sample ++
            ReadResult.failure :: [ReadResult.sample 3, ReadResult.failure])).2.count
            Event.errorEv = 1 ∧
        runPipeline ⟨true, Mode.normal⟩ ([1, 2].map ReadResult.sample ++
            ReadResult.failure :: [ReadResult.sample 3, ReadResult.failure]) =
          runPipeline ⟨true, Mode.normal⟩ ([1, 2].map ReadResult.sample ++
            [ReadResult.failure])) :=
  ⟨rfl, C5_read_failure_stops_session ⟨true, Mode.normal⟩ [1, 2]
    [ReadResult.sample 3, ReadResult.failure] rfl⟩

/-- Is the event data-bearing (subject to the hub's drop policy)?  Only
`eeg_data` events carry analysis data; start/stop/error/state-sync (and the
advisory events) are control events and are never dropped. -/
def Event.isData : Event → Bool
  | .eegData _ => true
  | _ => false

/-- A connected subscriber: liveness flag, outbound queue (head = oldest)
and the events already received over the connection, in delivery order. -/
structure Subscriber where
  live : Bool
  queue : List Event
  delivered : List Event
deriving DecidableEq, Repr

/-- Modelled from the spec: remove the oldest queued data-bearing event;
`none` when the queue holds no data-bearing event. -/
def dropOldestData : List Event → Option (List Event)
  | [] => none
  | e :: rest =>
      if e.isData then some rest
      else
        match dropOldestData rest with
        | some rest2 => some (e :: rest2)
        | none => none

/-- Modelled from the spec: the BroadcastHub's bounded per-subscriber
enqueue (backend source is not under src/; spec section 4.5).  When the
queue is full the oldest queued data-bearing event is dropped; control
events are never dropped, and when the full queue holds no data-bearing
event an incoming data event is itself dropped rather than any control
event. -/
def enqueueEvent (K : ℕ) (q : List Event) (e : Event) : List Event :=
  if q.length < K then q ++ [e]
  else
    match dropOldestData q with
    | some q2 => q2 ++ [e]
    | none => if e.isData then q else q ++ [e]

/-- Push an event onto every live subscriber's queue. -/
def publishToAll (K : ℕ) (subs : List Subscriber) (e : Event) :
    List Subscriber :=
  subs.map fun s =>
    if s.live then { s with queue := enqueueEvent K s.queue e } else s

/-- One step of a subscriber's drain loop: deliver the oldest queued event. -/
def deliverOne (s : Subscriber) : Subscriber :=
  match s.queue with
  | [] => s
  | e :: rest => { s with queue := rest, delivered := s.delivered ++ [e] }

/-- A closed/broken connection: the subscriber is no longer live and its
queue is discarded. -/
def markClosed (s : Subscriber) : Subscriber := { s with live := false, queue := [] }

/-- Apply a function at one index of a list, leaving other entries alone. -/
def modifyIdx {α : Type} (f : α → α) : List α → ℕ → List α
  | [], _ => []
  | x :: xs, 0 => f x :: xs
  | x :: xs, n + 1 => x :: modifyIdx f xs n

/-- The hub state: the current Session snapshot and the subscriber set. -/
structure Hub where
  session : Session
  subs : List Subscriber
deriving DecidableEq, Repr

/-- The operations the hub is subject to: a new subscription, a publish from
the producer pipeline, one delivery step of a subscriber's drain loop, a
connection closing, and an inbound command routed through the
SessionController with its emitted events broadcast to all subscribers. -/
inductive HubOp where
  | subscribe
  | publish (e : Event)
  | deliver (i : ℕ)
  | unsubscribe (i : ℕ)
  | command (c : Command)
deriving DecidableEq, Repr

/-- Modelled from the spec: one hub transition (backend source is not under
src/; spec section 4.5).  `subscribe` immediately enqueues a state-sync
event carrying the current Session snapshot for the new subscriber. -/
def hubStep (K : ℕ) (h : Hub) : HubOp → Hub
  | .subscribe =>
      { h with subs := h.subs ++
          [⟨true, [Event.stateSync h.session.isRecording h.session.mode], []⟩] }
  | .publish e => { h with subs := publishToAll K h.subs e }
  | .deliver i => { h with subs := modifyIdx deliverOne h.subs i }
  | .unsubscribe i => { h with subs := modifyIdx markClosed h.subs i }
  | .command c =>
      let r := applyCommand h.session c
      { session := r.1, subs := r.2.foldl (publishToAll K) h.subs }

/-- Run the hub over a sequence of operations. -/
def hubRun (K : ℕ) (h : Hub) (ops : List HubOp) : Hub :=
  ops.foldl (hubStep K) h

/-- Per-subscriber invariant behind claim C3: whatever was delivered first
is the state-sync snapshot taken at subscribe time; while nothing has been
delivered the state-sync event is still at the head of the queue; and a
dead subscriber has a discarded queue. -/
def SyncFirst (r : Bool) (m : Mode) (sub : Subscriber) : Prop :=
  (sub.delivered = [] ∨ sub.delivered.head? = some (Event.stateSync r m)) ∧
    (sub.delivered = [] → sub.live = true →
      sub.queue.head? = some (Event.stateSync r m)) ∧
    (sub.live = false → sub.queue = [])

theorem dropOldestData_head (q q2 : List Event) (c : Event)
    (hc : c.isData = false) (hq : q.head? = some c)
    (hd : dropOldestData q = some q2) : q2.head? = some c := by
  cases q with
  | nil => simp at hq
  | cons e rest =>
      have he : e = c := by simpa using hq
      subst he
      rw [dropOldestData, hc] at hd
      simp only [Bool.false_eq_true, if_false] at hd
      cases hrest : dropOldestData rest with
      | none => rw [hrest] at hd; simp at hd
      | some rest2 =>
          rw [hrest] at hd
          simp only [Option.some.injEq] at hd
          subst hd
          rfl

theorem enqueueEvent_head (K : ℕ) (q : List Event) (e c : Event)
    (hc : c.isData = false) (hq : q.head? = some c) :
    (enqueueEvent K q e).head? = some c := by
  have hqne : q ≠ [] := by intro h0; rw [h0] at hq; simp at hq
  rw [enqueueEvent]
  by_cases hlen : q.length < K
  · rw [if_pos hlen]
    cases q with
    | nil => exact absurd rfl hqne
    | cons x xs => simpa using hq
  · rw [if_neg hlen]
    cases hd : dropOldestData q with
    | some q2 =>
        have h2 := dropOldestData_head q q2 c hc hq hd
        cases q2 with
        | nil => simp at h2
        | cons y ys => simpa using h2
    | none =>
        by_cases he : e.isData
        · rw [he]; simpa using hq
        · simp only [he, Bool.false_eq_true, if_false]
          cases q with
          | nil => exact absurd rfl hqne
          | cons x xs => simpa using hq

theorem syncFirst_enqueue (K : ℕ) (r : Bool) (m : Mode) (e : Event)
    (sub : Subscriber) (hl : sub.live = true) (h : SyncFirst r m sub) :
    SyncFirst r m { sub with queue := enqueueEvent K sub.queue e } := by
  obtain ⟨h1, h2, _h3⟩ := h
  refine ⟨h1, ?_, ?_⟩
  · intro hdel hlive
    exact enqueueEvent_head K sub.queue e _ rfl (h2 hdel hlive)
  · intro hlive
    simp only [hl] at hlive
    exact absurd hlive (by simp)

theorem syncFirst_publishToAll (K : ℕ) (r : Bool) (m : Mode) (e : Event)
    (sub : Subscriber) (h : SyncFirst r m sub) :
    SyncFirst r m (if sub.live then
      { sub with queue := enqueueEvent K sub.queue e } else sub) := by
  by_cases hl : sub.live
  · rw [if_pos hl]; exact syncFirst_enqueue K r m e sub hl h
  · rw [if_neg hl]; exact h

theorem deliverOne_of_nil (sub : Subscriber) (hq : sub.queue = []) :
    deliverOne sub = sub := by
  unfold deliverOne
  rw [hq]

theorem deliverOne_of_cons (sub : Subscriber) (e : Event) (rest : List Event)
    (hq : sub.queue = e :: rest) :
    deliverOne sub = { sub with queue := rest, delivered := sub.delivered ++ [e] } := by
  unfold deliverOne
  rw [hq]

theorem syncFirst_deliverOne (r : Bool) (m : Mode) (sub : Subscriber)
    (h : SyncFirst r m sub) : SyncFirst r m (deliverOne sub) := by
  obtain ⟨h1, h2, h3⟩ := h
  cases hq : sub.queue with
  | nil =>
      rw [deliverOne_of_nil sub hq]
      exact ⟨h1, h2, h3⟩
  | cons e rest =>
      rw [deliverOne_of_cons sub e rest hq]
      have hlive : sub.live = true := by
        cases hl : sub.live with
        | true => rfl
        | false =>
            have h0 := h3 hl
            rw [h0] at hq
            exact absurd hq (by simp)
      refine ⟨?_, ?_, ?_⟩
      · cases hdel : sub.delivered with
        | nil =>
            right
            have he := h2 hdel hlive
            rw [hq] at he
            simp only [List.head?_cons, Option.some.injEq] at he
            subst he
            simp [hdel]
        | cons d ds =>
            right
            rcases h1 with h1 | h1
            · rw [hdel] at h1; exact absurd h1 (by simp)
            · rw [hdel] at h1
              simp only [hdel]
              simpa using h1
      · intro hdel
        exact absurd hdel (by simp)
      · intro hl
        simp only [hlive] at hl
        exact absurd hl (by simp)

theorem syncFirst_markClosed (r : Bool) (m : Mode) (sub : Subscriber)
    (h : SyncFirst r m sub) : SyncFirst r m (markClosed sub) := by
  obtain ⟨h1, _h2, _h3⟩ := h
  exact ⟨h1, fun _ hl => by simp [markClosed] at hl, fun _ => rfl⟩

theorem getElemQ_append_lt {α : Type} (l l2 : List α) (n : ℕ)
    (hn : n < l.length) : (l ++ l2)[n]? = l[n]? := by
  induction l generalizing n with
  | nil => simp at hn
  | cons x xs ih =>
      cases n with
      | zero => simp
      | succ k => simpa using ih k (by simpa using hn)

theorem getElemQ_append_self {α : Type} (l : List α) (a : α) :
    (l ++ [a])[l.length]? = some a := by
  induction l with
  | nil => rfl
  | cons x xs ih => simp [ih]

theorem modifyIdx_length {α : Type} (f : α → α) (l : List α) (i : ℕ) :
    (modifyIdx f l i).length = l.length := by
  induction l generalizing i with
  | nil => rfl
  | cons x xs ih => cases i <;> simp [modifyIdx, ih]

theorem modifyIdx_getElemQ {α : Type} (f : α → α) (l : List α) (i n : ℕ) :
    (modifyIdx f l i)[n]? = if i = n then (l[n]?).map f else l[n]? := by
  induction l generalizing i n with
  | nil => simp [modifyIdx]
  | cons x xs ih =>
      cases i with
      | zero => cases n <;> simp [modifyIdx]
      | succ j =>
          cases n with
          | zero => simp [modifyIdx]
          | succ k => simpa [modifyIdx] using ih j k

theorem publishToAll_length (K : ℕ) (subs : List Subscriber) (e : Event) :
    (publishToAll K subs e).length = subs.length := by
  simp [publishToAll]

theorem syncFirst_publish_at (K : ℕ) (r : Bool) (m : Mode) (n : ℕ)
    (e : Event) (subs : List Subscriber)
    (hinv : ∀ sub, subs[n]? = some sub → SyncFirst r m sub) :
    ∀ sub, (publishToAll K subs e)[n]? = some sub → SyncFirst r m sub := by
  intro sub hs
  simp only [publishToAll, List.getElem?_map] at hs
  cases hg : subs[n]? with
  | none => rw [hg] at hs; simp at hs
  | some s0 =>
      rw [hg] at hs
      simp only [Option.map_some'] at hs
      have hs2 := Option.some.inj hs
      rw [← hs2]
      exact syncFirst_publishToAll K r m e s0 (hinv s0 hg)

theorem syncFirst_publishFold (K : ℕ) (r : Bool) (m : Mode) (n : ℕ)
    (evs : List Event) (subs : List Subscriber)
    (hn : n < subs.length)
    (hinv : ∀ sub, subs[n]? = some sub → SyncFirst r m sub) :
    n < (evs.foldl (publishToAll K) subs).length ∧
      ∀ sub, (evs.foldl (publishToAll K) subs)[n]? = some sub →
        SyncFirst r m sub := by
  induction evs generalizing subs with
  | nil => exact ⟨hn, hinv⟩
  | cons e es ih =>
      have hn2 : n < (publishToAll K subs e).length := by
        rw [publishToAll_length]; exact hn
      exact ih (publishToAll K subs e) hn2
        (syncFirst_publish_at K r m n e subs hinv)

theorem syncFirst_modifyIdx (r : Bool) (m : Mode) (n i : ℕ)
    (f : Subscriber → Subscriber)
    (hf : ∀ sub, SyncFirst r m sub → SyncFirst r m (f sub))
    (subs : List Subscriber)
    (hinv : ∀ sub, subs[n]? = some sub → SyncFirst r m sub) :
    ∀ sub, (modifyIdx f subs i)[n]? = some sub → SyncFirst r m sub := by
  intro sub hs
  rw [modifyIdx_getElemQ] at hs
  by_cases hin : i = n
  · rw [if_pos hin] at hs
    cases hg : subs[n]? with
    | none => rw [hg] at hs; simp at hs
    | some s0 =>
        rw [hg] at hs
        simp only [Option.map_some'] at hs
        have hs2 := Option.some.inj hs
        rw [← hs2]
        exact hf s0 (hinv s0 hg)
  · rw [if_neg hin] at hs
    exact hinv sub hs

theorem syncFirst_hubStep (K : ℕ) (r : Bool) (m : Mode) (n : ℕ) (h : Hub)
    (op : HubOp) (hn : n < h.subs.length)
    (hinv : ∀ sub, h.subs[n]? = some sub → SyncFirst r m sub) :
    n < (hubStep K h op).subs.length ∧
      ∀ sub, (hubStep K h op).subs[n]? = some sub → SyncFirst r m sub := by
  cases op with
  | subscribe =>
      refine ⟨by simp [hubStep]; omega, ?_⟩
      intro sub hs
      rw [hubStep] at hs
      rw [getElemQ_append_lt h.subs _ n hn] at hs
      exact hinv sub hs
  | publish e =>
      refine ⟨by rw [hubStep, publishToAll_length]; exact hn, ?_⟩
      exact syncFirst_publish_at K r m n e h.subs hinv
  | deliver i =>
      refine ⟨by rw [hubStep, modifyIdx_length]; exact hn, ?_⟩
      exact syncFirst_modifyIdx r m n i deliverOne
        (fun sub => syncFirst_deliverOne r m sub) h.subs hinv
  | unsubscribe i =>
      refine ⟨by rw [hubStep, modifyIdx_length]; exact hn, ?_⟩
      exact syncFirst_modifyIdx r m n i markClosed
        (fun sub => syncFirst_markClosed r m sub) h.subs hinv
  | command c =>
      exact syncFirst_publishFold K r m n (applyCommand h.session c).2
        h.subs hn hinv

theorem syncFirst_hubRun (K : ℕ) (r : Bool) (m : Mode) (n : ℕ) (h : Hub)
    (ops : List HubOp) (hn : n < h.subs.length)
    (hinv : ∀ sub, h.subs[n]? = some sub → SyncFirst r m sub) :
    n < (hubRun K h ops).subs.length ∧
      ∀ sub, (hubRun K h ops).subs[n]? = some sub → SyncFirst r m sub := by
  induction ops generalizing h with
  | nil => exact ⟨hn, hinv⟩
  | cons op ops ih =>
      obtain ⟨hn2, hinv2⟩ := syncFirst_hubStep K r m n h op hn hinv
      exact ih (hubStep K h op) hn2 hinv2

/-- C3: a subscriber that joins at any point receives, as the first event on
its connection, a state_sync event whose is_recording (and mode) match the
live Session at the moment of subscription, and no eeg_data event is
delivered to it before that state_sync. -/
theorem C3_state_sync_first (K : ℕ) (h : Hub) (ops : List HubOp)
    (sub : Subscriber)
    (hsub : (hubRun K (hubStep K h .subscribe) ops).subs[h.subs.length]? =
      some sub)
    (hne : sub.delivered ≠ []) :
    sub.delivered.head? =
        some (Event.stateSync h.session.isRecording h.session.mode) ∧
      ∀ i t, sub.delivered[i]? = some (Event.eegData t) → 0 < i := by
  have hn : h.subs.length < (hubStep K h .subscribe).subs.length := by
    rw [hubStep, List.length_append]
    simp
  have hinv : ∀ s0, (hubStep K h .subscribe).subs[h.subs.length]? = some s0 →
      SyncFirst h.session.isRecording h.session.mode s0 := by
    intro s0 hs
    rw [hubStep, getElemQ_append_self] at hs
    have hs2 := Option.some.inj hs
    rw [← hs2]
    exact ⟨Or.inl rfl, fun _ _ => rfl, by intro hc; simp at hc⟩
  obtain ⟨_, hall⟩ := syncFirst_hubRun K h.session.isRecording h.session.mode
    h.subs.length (hubStep K h .subscribe) ops hn hinv
  obtain ⟨h1, _, _⟩ := hall sub hsub
  rcases h1 with h1 | h1
  · exact absurd h1 hne
  · refine ⟨h1, ?_⟩
    intro i t hit
    cases i with
    | zero =>
        cases hd : sub.delivered with
        | nil => exact absurd hd hne
        | cons d ds =>
            rw [hd] at h1 hit
            simp only [List.head?_cons, Option.some.injEq] at h1
            simp only [List.getElem?_cons_zero, Option.some.injEq] at hit
            rw [h1] at hit
            exact absurd hit (by simp)
    | succ j => exact Nat.succ_pos j

/-- Witness for C3: a hub with a recording session, one subscriber joining,
one data event published and two delivery steps. -/
theorem C3_state_sync_first_witness :
    (hubRun 2 (hubStep 2 ⟨⟨true, Mode.normal⟩, []⟩ HubOp.subscribe)
          [HubOp.publish (Event.eegData 7), HubOp.deliver 0,
            HubOp.deliver 0]).subs[(0 : ℕ)]? =
        some ⟨true, [], [Event.stateSync true Mode.normal, Event.eegData 7]⟩ ∧
      ([Event.stateSync true Mode.normal, Event.eegData 7] : List Event) ≠ [] ∧
      (([Event.stateSync true Mode.normal,
            Event.eegData 7] : List Event).head? =
          some (Event.stateSync true Mode.normal) ∧
        ∀ i t, ([Event.stateSync true Mode.normal,
            Event.eegData 7] : List Event)[i]? = some (Event.eegData t) →
          0 < i) :=
  ⟨by decide, by decide,
    C3_state_sync_first 2 ⟨⟨true, Mode.normal⟩, []⟩
      [HubOp.publish (Event.eegData 7), HubOp.deliver 0, HubOp.deliver 0]
      ⟨true, [], [Event.stateSync true Mode.normal, Event.eegData 7]⟩
      (by decide) (by decide)⟩

/-- Number of data-bearing events buffered in a queue. -/
def dataCount (q : List Event) : ℕ := q.countP Event.isData

/-- Number of control (non-data) events buffered in a queue. -/
def controlCount (q : List Event) : ℕ := q.countP fun e => !e.isData

theorem dataCount_le_length (q : List Event) : dataCount q ≤ q.length :=
  List.countP_le_length _

theorem dataCount_append_one (q : List Event) (e : Event) :
    dataCount (q ++ [e]) = dataCount q + (if e.isData then 1 else 0) := by
  simp [dataCount, List.countP_append, List.countP_cons]

theorem controlCount_append_one (q : List Event) (e : Event) :
    controlCount (q ++ [e]) = controlCount q + (if e.isData then 0 else 1) := by
  cases he : e.isData <;>
    simp [controlCount, List.countP_append, List.countP_cons, he]

theorem dropOldestData_counts (q q2 : List Event)
    (hd : dropOldestData q = some q2) :
    dataCount q = dataCount q2 + 1 ∧ controlCount q2 = controlCount q := by
  induction q generalizing q2 with
  | nil => simp [dropOldestData] at hd
  | cons e rest ih =>
      rw [dropOldestData] at hd
      by_cases he : e.isData
      · rw [if_pos he] at hd
        have hq2 := Option.some.inj hd
        subst hq2
        constructor
        · simp [dataCount, List.countP_cons, he]
        · simp [controlCount, List.countP_cons, he]
      · rw [if_neg he] at hd
        cases hrest : dropOldestData rest with
        | none => rw [hrest] at hd; simp at hd
        | some rest2 =>
            rw [hrest] at hd
            simp only [Option.some.injEq] at hd
            subst hd
            obtain ⟨ih1, ih2⟩ := ih rest2 hrest
            have heb : e.isData = false := by
              revert he; cases e.isData <;> simp
            constructor
            · simp [dataCount, List.countP_cons, heb] at ih1 ⊢
              omega
            · simp [controlCount, List.countP_cons, heb] at ih2 ⊢
              omega

theorem enqueueEvent_dataCount (K : ℕ) (q : List Event) (e : Event)
    (h : dataCount q ≤ K) : dataCount (enqueueEvent K q e) ≤ K := by
  rw [enqueueEvent]
  by_cases hlen : q.length < K
  · rw [if_pos hlen]
    rw [dataCount_append_one]
    have hle := dataCount_le_length q
    by_cases he : e.isData <;> simp [he] <;> omega
  · rw [if_neg hlen]
    cases hd : dropOldestData q with
    | some q2 =>
        obtain ⟨h1, _⟩ := dropOldestData_counts q q2 hd
        rw [dataCount_append_one]
        by_cases he : e.isData <;> simp [he] <;> omega
    | none =>
        by_cases he : e.isData
        · rw [if_pos he]
          exact h
        · rw [if_neg he]
          rw [dataCount_append_one]
          have heb : e.isData = false := by
            revert he; cases e.isData <;> simp
          simp [heb]
          exact h

theorem enqueueEvent_controlCount (K : ℕ) (q : List Event) (e : Event) :
    controlCount (enqueueEvent K q e) =
      controlCount q + (if e.isData then 0 else 1) := by
  rw [enqueueEvent]
  by_cases hlen : q.length < K
  · rw [if_pos hlen, controlCount_append_one]
  · rw [if_neg hlen]
    cases hd : dropOldestData q with
    | some q2 =>
        obtain ⟨_, h2⟩ := dropOldestData_counts q q2 hd
        rw [controlCount_append_one, h2]
    | none =>
        by_cases he : e.isData
        · rw [if_pos he]
          simp [he]
        · rw [if_neg he, controlCount_append_one]

/-- C4: with per-subscriber queue capacity K, publishing any sequence of
events to a stalled subscriber (no delivery in between) keeps the number of
buffered data-bearing events at most K — only queued data events are ever
dropped — while every control event (state-sync, start, stop, error, ...)
published is retained: zero control events are dropped.  In particular this
holds when K+5 data events are published against capacity K. -/
theorem C4_backpressure_bounds (K : ℕ) (q0 : List Event) (evs : List Event)
    (h0 : dataCount q0 ≤ K) :
    dataCount (evs.foldl (enqueueEvent K) q0) ≤ K ∧
      controlCount (evs.foldl (enqueueEvent K) q0) =
        controlCount q0 + controlCount evs := by
  induction evs generalizing q0 with
  | nil =>
      refine ⟨h0, ?_⟩
      simp [controlCount]
  | cons e es ih =>
      obtain ⟨ih1, ih2⟩ := ih (enqueueEvent K q0 e)
        (enqueueEvent_dataCount K q0 e h0)
      refine ⟨ih1, ?_⟩
      rw [List.foldl_cons, ih2, enqueueEvent_controlCount]
      cases he : e.isData
      · simp [controlCount, List.countP_cons, he]
        try omega
      · simp [controlCount, List.countP_cons, he]
        try omega

/-- Witness for C4: capacity K = 3, a queue holding the state-sync control
event, and K + 5 = 8 data events published while the subscriber is
stalled. -/
theorem C4_backpressure_bounds_witness :
    dataCount [Event.stateSync true Mode.normal] ≤ 3 ∧
      (dataCount ([Event.eegData 1, Event.eegData 2, Event.eegData 3,
            Event.eegData 4, Event.eegData 5, Event.eegData 6, Event.eegData 7,
            Event.eegData 8].foldl (enqueueEvent 3)
          [Event.stateSync true Mode.normal]) ≤ 3 ∧
        controlCount ([Event.eegData 1, Event.eegData 2, Event.eegData 3,
            Event.eegData 4, Event.eegData 5, Event.eegData 6, Event.eegData 7,
            Event.eegData 8].foldl (enqueueEvent 3)
          [Event.stateSync true Mode.normal]) =
          controlCount [Event.stateSync true Mode.normal] +
            controlCount [Event.eegData 1, Event.eegData 2, Event.eegData 3,
              Event.eegData 4, Event.eegData 5, Event.eegData 6,
              Event.eegData 7, Event.eegData 8]) :=
  ⟨by decide,
    C4_backpressure_bounds 3 [Event.stateSync true Mode.normal]
      [Event.eegData 1, Event.eegData 2, Event.eegData 3, Event.eegData 4,
        Event.eegData 5, Event.eegData 6, Event.eegData 7, Event.eegData 8]
      (by decide)⟩

/-- JavaScript `x || d` on an optional string: absent, null and the empty
string are falsy. -/
def jsOrStr (o : Option String) (d : String) : String :=
  match o with
  | some s => if s = "" then d else s
  | none => d

/-- JavaScript truthiness of an optional number: absent, null and 0 are
falsy. -/
def jsTruthyQ (o : Option ℚ) : Bool :=
  match o with
  | some v => if v = 0 then false else true
  | none => false

/-- The `prev.slice(-59)` step used by every chart-buffer update in all
dashboard variants: keep only the last 59 points of the previous buffer. -/
def sliceLast59 {α : Type} (l : List α) : List α := l.drop (l.length - 59)

/-- One charted voltage point as built by src/unnamed/part_000 (the JS turns
the timestamp into a locale time string; the raw timestamp stands in for
that label). -/
structure VoltagePoint where
  time : ℕ
  channel1 : ℚ
  channel2 : ℚ
  channel3 : ℚ
  channel4 : ℚ
deriving DecidableEq, Repr

/-- One charted mental-state point (src/unnamed/part_000). -/
structure MentalPoint where
  time : ℕ
  calm : ℚ
  stressed : ℚ
  normal : ℚ
deriving DecidableEq, Repr

/-- The voltage score cards (src/unnamed/part_000). -/
structure VoltageScores where
  channel1 : ℚ
  channel2 : ℚ
  channel3 : ℚ
  channel4 : ℚ
deriving DecidableEq, Repr

/-- The mental-state score cards (src/unnamed/part_000). -/
structure MentalScores where
  calm : ℚ
  stressed : ℚ
  normal : ℚ
deriving DecidableEq, Repr

/-- The React state of the part_000 Dashboard component that the websocket
message handler touches. -/
structure DashState where
  isRecording : Bool
  mentalStateMode : String
  voltageData : List VoltagePoint
  mentalStateData : List MentalPoint
  voltageScores : VoltageScores
  mentalStateScores : MentalScores
  status : String
  error : Option String
deriving DecidableEq, Repr

/-- The raw_channels payload of an eeg_data message; absent or null fields
are `none`. -/
structure RawChannelsMsg where
  channel1 : Option ℚ
  channel2 : Option ℚ
  channel3 : Option ℚ
  channel4 : Option ℚ
deriving DecidableEq, Repr

/-- The mental_state payload of an eeg_data message. -/
structure MentalStateMsg where
  calmScore : Option ℚ
  stressedScore : Option ℚ
  normalScore : Option ℚ
  mentalStateMode : Option String
deriving DecidableEq, Repr

/-- The websocket messages dispatched by the part_000 Dashboard handler. -/
inductive DashMsg where
  | eegData (timestamp : ℕ) (rawChannels : Option RawChannelsMsg)
      (mentalState : Option MentalStateMsg)
  | mentalStateChanged (mode : Option String)
  | recordingStarted
  | recordingStopped
  | info (message : String)
  | errorMsg (message : String)
  | stateSync (isRecording : Option Bool) (mode : Option String)
deriving DecidableEq, Repr

/-- The raw-channels branch of the part_000 eeg_data handler: builds the
voltage point with `channel_i || 0`, updates the score cards and appends to
the sliced voltage buffer; skipped when raw_channels is absent. -/
def applyRawChannels (st : DashState) (ts : ℕ) :
    Option RawChannelsMsg → DashState
  | some rc =>
      { st with
          voltageScores := ⟨rc.channel1.getD 0, rc.channel2.getD 0,
            rc.channel3.getD 0, rc.channel4.getD 0⟩,
          voltageData := sliceLast59 st.voltageData ++
            [⟨ts, rc.channel1.getD 0, rc.channel2.getD 0, rc.channel3.getD 0,
              rc.channel4.getD 0⟩] }
  | none => st

/-- The mental-state branch of the part_000 eeg_data handler: builds the
point with `score || 0`, updates the cards, appends to the sliced buffer and
adopts `mental_state_mode` when it is truthy. -/
def applyMentalState (st : DashState) (ts : ℕ) :
    Option MentalStateMsg → DashState
  | some ms =>
      let st2 := { st with
          mentalStateScores := ⟨ms.calmScore.getD 0, ms.stressedScore.getD 0,
            ms.normalScore.getD 0⟩,
          mentalStateData := sliceLast59 st.mentalStateData ++
            [⟨ts, ms.calmScore.getD 0, ms.stressedScore.getD 0,
              ms.normalScore.getD 0⟩] }
      match ms.mentalStateMode with
      | some md => if md = "" then st2 else { st2 with mentalStateMode := md }
      | none => st2
  | none => st

/-- The part_000 Dashboard websocket.onmessage handler
(src/unnamed/part_000 lines 81-172): one parsed message applied to the
component state. -/
def dashStep (st : DashState) (msg : DashMsg) : DashState :=
  match msg with
  | .eegData ts raw mental => applyMentalState (applyRawChannels st ts raw) ts mental
  | .mentalStateChanged mode => { st with mentalStateMode := jsOrStr mode "normal" }
  | .recordingStarted =>
      { st with status := "Recording...", error := none, isRecording := true }
  | .recordingStopped =>
      { st with status := "Connected (Stopped)", isRecording := false }
  | .info m => { st with status := m }
  | .errorMsg m =>
      { st with error := some m, status := "Error", isRecording := false }
  | .stateSync isRec _mode =>
      let r := isRec.getD false
      { st with
          isRecording := r,
          status := if r then "Recording..." else "Connected" }

/-- The data payload of a legacy eeg_data message (src/unnamed/part_001). -/
structure LegacyData where
  channel1 : Option ℚ
  channel2 : Option ℚ
  channel3 : Option ℚ
  channel4 : Option ℚ
deriving DecidableEq, Repr

/-- One charted point of the legacy dashboard (src/unnamed/part_001). -/
structure LegacyPoint where
  time : ℕ
  channel1 : ℚ
  channel2 : ℚ
  channel3 : ℚ
  channel4 : ℚ
deriving DecidableEq, Repr

/-- The legacy score cards: focus/load/anomaly hold channels 1-3 and
channel4 holds channel 4 (src/unnamed/part_001). -/
structure LegacyScores where
  focus : ℚ
  load : ℚ
  anomaly : ℚ
  channel4 : ℚ
deriving DecidableEq, Repr

/-- The websocket messages dispatched by the legacy part_001 handler. -/
inductive LegacyMsg where
  | eegData (timestamp : ℕ) (data : Option LegacyData)
  | recordingStarted
  | recordingStopped
  | info (message : String)
  | errorMsg (message : String)
  | stateSync (isRecording : Option Bool) (mode : Option String)
deriving DecidableEq, Repr

/-- The React state of the legacy part_001 Dashboard component. -/
structure LegacyState where
  isRecording : Bool
  currentMode : String
  eegData : List LegacyPoint
  scores : LegacyScores
  status : String
  error : Option String
deriving DecidableEq, Repr

/-- The legacy part_001 Dashboard websocket.onmessage handler
(src/unnamed/part_001 lines 31-97).  An eeg_data message whose data is
absent or whose data.channel_1 is falsy (absent, null or 0) is discarded
whole: `if (!message.data || !message.data.channel_1) return`. -/
def legacyStep (st : LegacyState) (msg : LegacyMsg) : LegacyState :=
  match msg with
  | .eegData ts data =>
      match data with
      | none => st
      | some d =>
          if jsTruthyQ d.channel1 then
            { st with
                scores := ⟨d.channel1.getD 0, d.channel2.getD 0,
                  d.channel3.getD 0, d.channel4.getD 0⟩,
                eegData := sliceLast59 st.eegData ++
                  [⟨ts, d.channel1.getD 0, d.channel2.getD 0,
                    d.channel3.getD 0, d.channel4.getD 0⟩] }
          else st
  | .recordingStarted =>
      { st with status := "Recording...", error := none, isRecording := true }
  | .recordingStopped =>
      { st with status := "Connected (Stopped)", isRecording := false }
  | .info m => { st with status := m }
  | .errorMsg m =>
      { st with error := some m, status := "Error", isRecording := false }
  | .stateSync isRec mode =>
      let r := isRec.getD false
      { st with
          isRecording := r,
          currentMode := jsOrStr mode "background",
          status := if r then "Recording..." else "Connected" }

/-- C9: an eeg_data message whose data.channel_1 is absent, null or exactly
0 is discarded whole by the legacy handler — the chart buffer, all four
score cards and the error state are left unchanged. -/
theorem C9_legacy_discards_falsy_channel1 (st : LegacyState) (ts : ℕ)
    (d : Option LegacyData)
    (h : d = none ∨ ∃ dd, d = some dd ∧
      (dd.channel1 = none ∨ dd.channel1 = some 0)) :
    legacyStep st (.eegData ts d) = st ∧
      (legacyStep st (.eegData ts d)).eegData = st.eegData ∧
      (legacyStep st (.eegData ts d)).scores = st.scores ∧
      (legacyStep st (.eegData ts d)).error = st.error := by
  have heq : legacyStep st (.eegData ts d) = st := by
    rcases h with h | ⟨dd, hd, hc⟩
    · subst h; rfl
    · subst hd
      rcases hc with hc | hc <;>
        simp [legacyStep, jsTruthyQ, hc]
  exact ⟨heq, by rw [heq], by rw [heq], by rw [heq]⟩

/-- Witness for C9: a legitimate zero-microvolt channel_1 sample against a
concrete legacy component state. -/
theorem C9_legacy_discards_falsy_channel1_witness :
    ((some ⟨some 0, some 5, none, some 2⟩ : Option LegacyData) = none ∨
      ∃ dd, (some ⟨some 0, some 5, none, some 2⟩ : Option LegacyData) =
          some dd ∧ (dd.channel1 = none ∨ dd.channel1 = some 0)) ∧
      (legacyStep ⟨false, "background", [], ⟨0, 0, 0, 0⟩, "Connected", none⟩
          (.eegData 11 (some ⟨some 0, some 5, none, some 2⟩)) =
        ⟨false, "background", [], ⟨0, 0, 0, 0⟩, "Connected", none⟩ ∧
      (legacyStep ⟨false, "background", [], ⟨0, 0, 0, 0⟩, "Connected", none⟩
          (.eegData 11 (some ⟨some 0, some 5, none, some 2⟩))).eegData =
        ([] : List LegacyPoint) ∧
      (legacyStep ⟨false, "background", [], ⟨0, 0, 0, 0⟩, "Connected", none⟩
          (.eegData 11 (some ⟨some 0, some 5, none, some 2⟩))).scores =
        ⟨0, 0, 0, 0⟩ ∧
      (legacyStep ⟨false, "background", [], ⟨0, 0, 0, 0⟩, "Connected", none⟩
          (.eegData 11 (some ⟨some 0, some 5, none, some 2⟩))).error =
        none) :=
  ⟨Or.inr ⟨⟨some 0, some 5, none, some 2⟩, rfl, Or.inr rfl⟩,
    C9_legacy_discards_falsy_channel1
      ⟨false, "background", [], ⟨0, 0, 0, 0⟩, "Connected", none⟩ 11
      (some ⟨some 0, some 5, none, some 2⟩)
      (Or.inr ⟨⟨some 0, some 5, none, some 2⟩, rfl, Or.inr rfl⟩)⟩

theorem sliceLast59_append_length {α : Type} (l : List α) (x : α) :
    (sliceLast59 l ++ [x]).length ≤ 60 := by
  simp [sliceLast59]
  omega

theorem applyRawChannels_mentalStateData (s : DashState) (ts : ℕ)
    (raw : Option RawChannelsMsg) :
    (applyRawChannels s ts raw).mentalStateData = s.mentalStateData := by
  cases raw <;> rfl

theorem applyMentalState_voltageData (s : DashState) (ts : ℕ)
    (mental : Option MentalStateMsg) :
    (applyMentalState s ts mental).voltageData = s.voltageData := by
  cases mental with
  | none => rfl
  | some ms =>
      rw [applyMentalState]
      cases hm : ms.mentalStateMode with
      | none => rfl
      | some md =>
          by_cases hmd : md = "" <;> simp [hmd]

theorem dashStep_voltageData_length (st : DashState) (msg : DashMsg)
    (h : st.voltageData.length ≤ 60) :
    (dashStep st msg).voltageData.length ≤ 60 := by
  cases msg with
  | eegData ts raw mental =>
      rw [dashStep, applyMentalState_voltageData]
      cases raw with
      | none => exact h
      | some rc => exact sliceLast59_append_length _ _
  | mentalStateChanged mode => exact h
  | recordingStarted => exact h
  | recordingStopped => exact h
  | info m => exact h
  | errorMsg m => exact h
  | stateSync a b => exact h

theorem applyMentalState_mentalStateData_length (s : DashState) (ts : ℕ)
    (mental : Option MentalStateMsg) (h : s.mentalStateData.length ≤ 60) :
    (applyMentalState s ts mental).mentalStateData.length ≤ 60 := by
  cases mental with
  | none => exact h
  | some ms =>
      rw [applyMentalState]
      cases hm : ms.mentalStateMode with
      | none => exact sliceLast59_append_length _ _
      | some md =>
          simp only [hm]
          split
          · exact sliceLast59_append_length _ _
          · exact sliceLast59_append_length _ _

theorem dashStep_mentalStateData_length (st : DashState) (msg : DashMsg)
    (h : st.mentalStateData.length ≤ 60) :
    (dashStep st msg).mentalStateData.length ≤ 60 := by
  cases msg with
  | eegData ts raw mental =>
      rw [dashStep]
      apply applyMentalState_mentalStateData_length
      rw [applyRawChannels_mentalStateData]
      exact h
  | mentalStateChanged mode => exact h
  | recordingStarted => exact h
  | recordingStopped => exact h
  | info m => exact h
  | errorMsg m => exact h
  | stateSync a b => exact h

theorem legacyStep_eegData_length (st : LegacyState) (msg : LegacyMsg)
    (h : st.eegData.length ≤ 60) :
    (legacyStep st msg).eegData.length ≤ 60 := by
  cases msg with
  | eegData ts data =>
      cases data with
      | none => exact h
      | some d =>
          rw [legacyStep]
          by_cases hc : jsTruthyQ d.channel1
          · simp only [hc, if_true]
            exact sliceLast59_append_length _ _
          · simp only [hc, Bool.false_eq_true, if_false]
            exact h
  | recordingStarted => exact h
  | recordingStopped => exact h
  | info m => exact h
  | errorMsg m => exact h
  | stateSync a b => exact h

theorem dashFold_buffers (msgs : List DashMsg) (st : DashState)
    (h1 : st.voltageData.length ≤ 60) (h2 : st.mentalStateData.length ≤ 60) :
    (msgs.foldl dashStep st).voltageData.length ≤ 60 ∧
      (msgs.foldl dashStep st).mentalStateData.length ≤ 60 := by
  induction msgs generalizing st with
  | nil => exact ⟨h1, h2⟩
  | cons m ms ih =>
      exact ih (dashStep st m) (dashStep_voltageData_length st m h1)
        (dashStep_mentalStateData_length st m h2)

theorem legacyFold_buffers (msgs : List LegacyMsg) (st : LegacyState)
    (h : st.eegData.length ≤ 60) :
    (msgs.foldl legacyStep st).eegData.length ≤ 60 := by
  induction msgs generalizing st with
  | nil => exact h
  | cons m ms ih => exact ih (legacyStep st m) (legacyStep_eegData_length st m h)

/-- C10: every chart-buffer update in both dashboard variants slices the
previous array to its last 59 entries before appending the new point, so
after the clients process any sequence of messages from buffers within the
bound, each buffer (voltageData and mentalStateData in part_000, eegData in
part_001) holds at most 60 points — in particular from the empty initial
buffers. -/
theorem C10_chart_buffers_bounded (st : DashState) (lst : LegacyState)
    (msgs : List DashMsg) (lmsgs : List LegacyMsg)
    (h1 : st.voltageData.length ≤ 60) (h2 : st.mentalStateData.length ≤ 60)
    (h3 : lst.eegData.length ≤ 60) :
    ((msgs.foldl dashStep st).voltageData.length ≤ 60 ∧
        (msgs.foldl dashStep st).mentalStateData.length ≤ 60 ∧
        (lmsgs.foldl legacyStep lst).eegData.length ≤ 60) ∧
      ∀ (prev : List VoltagePoint) (x : VoltagePoint),
        (sliceLast59 prev ++ [x]).length ≤ 60 := by
  obtain ⟨hv, hm⟩ := dashFold_buffers msgs st h1 h2
  exact ⟨⟨hv, hm, legacyFold_buffers lmsgs lst h3⟩,
    fun prev x => sliceLast59_append_length prev x⟩

/-- Witness for C10: empty initial buffers and a short message sequence. -/
theorem C10_chart_buffers_bounded_witness :
    (([] : List VoltagePoint).length ≤ 60 ∧
        ([] : List MentalPoint).length ≤ 60 ∧
        ([] : List LegacyPoint).length ≤ 60) ∧
      ((([DashMsg.recordingStarted, DashMsg.recordingStopped].foldl dashStep
            ⟨false, "normal", [], [], ⟨0, 0, 0, 0⟩, ⟨0, 0, 0⟩, "Connected",
              none⟩).voltageData.length ≤ 60 ∧
          ([DashMsg.recordingStarted, DashMsg.recordingStopped].foldl dashStep
            ⟨false, "normal", [], [], ⟨0, 0, 0, 0⟩, ⟨0, 0, 0⟩, "Connected",
              none⟩).mentalStateData.length ≤ 60 ∧
          ([LegacyMsg.recordingStarted].foldl legacyStep
            ⟨false, "background", [], ⟨0, 0, 0, 0⟩, "Connected",
              none⟩).eegData.length ≤ 60) ∧
        ∀ (prev : List VoltagePoint) (x : VoltagePoint),
          (sliceLast59 prev ++ [x]).length ≤ 60) :=
  ⟨⟨by decide, by decide, by decide⟩,
    C10_chart_buffers_bounded
      ⟨false, "normal", [], [], ⟨0, 0, 0, 0⟩, ⟨0, 0, 0⟩, "Connected", none⟩
      ⟨false, "background", [], ⟨0, 0, 0, 0⟩, "Connected", none⟩
      [DashMsg.recordingStarted, DashMsg.recordingStopped]
      [LegacyMsg.recordingStarted] (by decide) (by decide) (by decide)⟩

/-- Modelled from the spec: InvalidCommand handling — the malformed command
is rejected, the Session is unchanged, and an error event goes to the
offending subscriber only (spec section 7). -/
def rejectInvalidCommand (s : Session) : Session × List Event :=
  (s, [Event.errorEv])

/-- C8 counterexample: a part_000 Dashboard client that is recording
receives an error event (such as a command rejection) and its local
isRecording view flips to false — refuting the claim that each client's
synchronized view of isRecording stays unchanged, still recording if it was
recording. -/
theorem C8_counterexample_client_view_changes :
    (⟨true, "normal", [], [], ⟨0, 0, 0, 0⟩, ⟨0, 0, 0⟩, "Recording...",
        none⟩ : DashState).isRecording = true ∧
      (dashStep
        ⟨true, "normal", [], [], ⟨0, 0, 0, 0⟩, ⟨0, 0, 0⟩, "Recording...",
          none⟩ (DashMsg.errorMsg "Invalid command")).isRecording = false :=
  ⟨rfl, rfl⟩

/-- C8 (amended): an InvalidCommand rejection leaves the backend Session
unchanged, but every error event received by a client sets that client's
local isRecording view to false — a stop-equivalent view change — and
surfaces the message; the client view does not remain recording. -/
theorem C8_error_session_unchanged_client_stops (s : Session)
    (st : DashState) (lst : LegacyState) (m : String) :
    (rejectInvalidCommand s).1 = s ∧
      (dashStep st (DashMsg.errorMsg m)).isRecording = false ∧
      (dashStep st (DashMsg.errorMsg m)).error = some m ∧
      (legacyStep lst (LegacyMsg.errorMsg m)).isRecording = false ∧
      (legacyStep lst (LegacyMsg.errorMsg m)).error = some m :=
  ⟨rfl, rfl, rfl, rfl, rfl⟩

end Neurocalm
